/-
Verification of the flight-deck backend's reconciliation pipeline.

Shallow embedding of `src/backend/main.py` (data model, `_merge_ui_state`,
the `/api/adjust-ui` handler after the model call) and of
`src/backend/agent.py` (`extract_json_from_response`, `parse_agent_response`).
Strings are modelled as `List Char`; Python floats for the `scale` field are
modelled as exact rationals (the only operations on them are the range
comparisons against 0.5 and 2.0, which are exact); machine-level concerns do
not arise.  The external model invocation is opaque: the endpoint is embedded
as a function of the already-parsed `AgentResult`, exactly as the code behaves
from line `if not agent_result.success:` onward.
-/
import Mathlib

set_option autoImplicit false

/-! ## Domain model (`main.py`, lines 88-137)

`id: Literal["rpm", "altitude", "airspeed", "phase", "fuel"]` -/

inductive CompId where
  | rpm
  | altitude
  | airspeed
  | phase
  | fuel
deriving DecidableEq, Repr

/-- Source: `zone: Literal["primary", "secondary"]` -/
inductive Zone where
  | primary
  | secondary
deriving DecidableEq, Repr

/-- Source: `theme: Literal["dark", "light"]` -/
inductive Theme where
  | dark
  | light
deriving DecidableEq, Repr

/-- Source: `visualizationType: Optional[Literal["text", "bar", "ring"]]` -/
inductive VizType where
  | text
  | bar
  | ring
deriving DecidableEq, Repr

/-- Source: `COMPONENT_METADATA` (main.py lines 88-94): id → (label, isCore). -/
def COMPONENT_METADATA (i : CompId) : String × Bool :=
  match i with
  | .altitude => ("Altitude (ft)", true)
  | .airspeed => ("Airspeed (mph)", true)
  | .rpm => ("Engine RPM", true)
  | .phase => ("Flight Phase", true)
  | .fuel => ("Fuel Level (%)", false)

/-- Source: `COMPONENT_METADATA.get(id, {}).get("label", id)`: every member of the
`id` literal type is a key of the table, so the lookup always succeeds. -/
def metaLabel (i : CompId) : String := (COMPONENT_METADATA i).1

/-- Source: `COMPONENT_METADATA.get(id, {}).get("isCore", False)`: every member of the
`id` literal type is a key of the table, so the lookup always succeeds. -/
def metaIsCore (i : CompId) : Bool := (COMPONENT_METADATA i).2

/-- The keyword arguments handed to the `ComponentConfig` pydantic constructor
(one entry per declared model field).  `scale` distinguishes an absent key
(`none`, pydantic then applies the declared default `1.0`) from an explicit
JSON `null` (`some none`, kept as `None`, range constraints skipped);
for `label` and `isCore` the `always=True` validators treat an absent key and
an explicit `null` identically, so a single `Option` layer suffices. -/
structure RawComponent where
  id : CompId
  label : Option String
  visible : Bool
  zone : Zone
  order : Int
  color : Option String
  bgColor : Option String
  scale : Option (Option Rat)
  isCore : Option Bool
  visualizationType : Option VizType
deriving DecidableEq, Repr

/-- A validated `ComponentConfig` (main.py lines 97-121): after construction
`label` is a concrete string and `isCore` a concrete boolean (the validators
ran), `scale` is `None` or an in-range float, everything else is stored
verbatim. -/
structure ComponentConfig where
  id : CompId
  label : String
  visible : Bool
  zone : Zone
  order : Int
  color : Option String
  bgColor : Option String
  scale : Option Rat
  isCore : Bool
  visualizationType : Option VizType
deriving DecidableEq, Repr

/-- The literal `0.5`, written as a normalized numerator/denominator pair so
that kernel evaluation never has to normalize a quotient. -/
def halfRat : Rat := ⟨1, 2, by norm_num, Nat.coprime_one_left 2⟩

/-- Source: `Field(default=1.0, ge=0.5, le=2.0)` range check on a present float. -/
def scaleOk (x : Rat) : Bool := decide (halfRat ≤ x) && decide (x ≤ 2)

/-- The `set_label` validator (main.py lines 116-121): `if value:` keeps a
truthy (non-empty) string, otherwise falls back to the metadata table. -/
def defaultedLabel (i : CompId) (lab : Option String) : String :=
  match lab with
  | some s => if s.isEmpty then metaLabel i else s
  | none => metaLabel i

/-- The `set_is_core` validator (main.py lines 109-114): an explicitly given
boolean (even `False` on a core id) is returned unchanged; only `None` is
replaced by the table flag. -/
def defaultedIsCore (i : CompId) (v : Option Bool) : Bool :=
  match v with
  | some b => b
  | none => metaIsCore i

/-- Source: `ComponentConfig(**kwargs)`: pydantic construction.  The only fallible
field on a well-typed keyword record is `scale` (out of `[0.5, 2.0]` raises a
`ValidationError`); `label` and `isCore` are normalized by their validators. -/
def mkComponentConfig (r : RawComponent) : Except String ComponentConfig :=
  match r.scale with
  | some (some x) =>
      if scaleOk x then
        .ok { id := r.id, label := defaultedLabel r.id r.label,
              visible := r.visible, zone := r.zone, order := r.order,
              color := r.color, bgColor := r.bgColor, scale := some x,
              isCore := defaultedIsCore r.id r.isCore,
              visualizationType := r.visualizationType }
      else .error "scale: ensure this value is in the range 0.5 to 2.0"
  | some none =>
      .ok { id := r.id, label := defaultedLabel r.id r.label,
            visible := r.visible, zone := r.zone, order := r.order,
            color := r.color, bgColor := r.bgColor, scale := none,
            isCore := defaultedIsCore r.id r.isCore,
            visualizationType := r.visualizationType }
  | none =>
      .ok { id := r.id, label := defaultedLabel r.id r.label,
            visible := r.visible, zone := r.zone, order := r.order,
            color := r.color, bgColor := r.bgColor, scale := some 1,
            isCore := defaultedIsCore r.id r.isCore,
            visualizationType := r.visualizationType }

/-- Source: `comp.dict()`: pydantic serialization emits *every* declared field with its
current value (no `exclude_unset`), so the keyword record always carries all
keys; a present `scale` value (possibly `None`) and a present boolean
`isCore`. -/
def toRaw (c : ComponentConfig) : RawComponent :=
  { id := c.id, label := some c.label, visible := c.visible, zone := c.zone,
    order := c.order, color := c.color, bgColor := c.bgColor,
    scale := some c.scale, isCore := some c.isCore,
    visualizationType := c.visualizationType }

/-- A component is in the image of the constructor applied to its own
serialization: its label is non-empty (the validator replaced empty/absent
labels by the table entries, all non-empty) and its scale, when present, is in
range.  Every component that entered through pydantic satisfies this. -/
def validB (c : ComponentConfig) : Bool :=
  !c.label.isEmpty && (match c.scale with
    | none => true
    | some x => scaleOk x)

/-- Source: `UIState` (main.py lines 124-126): a pydantic model with *no* validators of
its own — any theme together with any component list is accepted. -/
structure UIState where
  theme : Theme
  components : List ComponentConfig
deriving DecidableEq, Repr

/-- Source: `UIState(theme=..., components=...)`: the constructor performs no check
beyond the field types. -/
def mkUIState (theme : Theme) (components : List ComponentConfig) : UIState :=
  { theme := theme, components := components }

/-- Source: `AgentResult` (main.py lines 134-137). -/
structure AgentResult where
  success : Bool
  message : Option String
  updatedConfig : Option UIState

/-- The JSON body `adjust_ui` returns (main.py lines 252-266): either the
rejection shape or the success shape with a merged `newState`. -/
inductive AdjustResponse where
  | rejected (message : String)
  | accepted (message : String) (newState : UIState)
deriving DecidableEq, Repr

/-- Python `x or default` on an optional string: `None` and `""` are falsy. -/
def pyOrStr (v : Option String) (d : String) : String :=
  match v with
  | some s => if s.isEmpty then d else s
  | none => d

/-- Source: `updated_config.theme or current_ui.theme` (main.py line 180): `theme` is a
mandatory literal field whose two possible values, `"dark"` and `"light"`, are
non-empty strings and hence truthy, so Python's `or` always yields the left
operand. -/
def themeOr (u _c : Theme) : Theme := u

/-! ## The dict `{c.id: c for c in current_ui.components}` (main.py line 161)

Modelled as an association list with Python-dict semantics: inserting an
existing key replaces its value in place, a fresh key is appended, iteration
follows first-insertion order. -/

def dictInsert (d : List (CompId × ComponentConfig)) (c : ComponentConfig) :
    List (CompId × ComponentConfig) :=
  if d.any (fun p => decide (p.1 = c.id)) then
    d.map (fun p => if p.1 = c.id then (p.1, c) else p)
  else d ++ [(c.id, c)]

def buildDict (comps : List ComponentConfig) : List (CompId × ComponentConfig) :=
  List.foldl dictInsert [] comps

/-- Source: `existing_components.get(comp.id)`. -/
def dictGet (d : List (CompId × ComponentConfig)) (i : CompId) :
    Option ComponentConfig :=
  (d.find? (fun p => decide (p.1 = i))).map (fun p => p.2)

/-- Source: `{**fallback.dict(), **source}` (main.py line 169): both serializations
carry every model field as a key, so the right-hand dict shadows the left at
every key and the overlay is the source record field-for-field. -/
def overlayDicts (_fallback source : RawComponent) : RawComponent :=
  { id := source.id, label := source.label, visible := source.visible,
    zone := source.zone, order := source.order, color := source.color,
    bgColor := source.bgColor, scale := source.scale,
    isCore := source.isCore, visualizationType := source.visualizationType }

/-- Body of the first merge loop (main.py lines 164-171): with a prior
component of the same id, rebuild through the constructor from the overlaid
dicts; otherwise keep the proposed component object itself. -/
def mergeOne (fallback : Option ComponentConfig) (comp : ComponentConfig) :
    Except String ComponentConfig :=
  match fallback with
  | some fb => mkComponentConfig (overlayDicts (toRaw fb) (toRaw comp))
  | none => .ok comp

/-- The Python `for` loop appending per-element results, with any raised
`ValidationError` propagating out of the whole merge. -/
def mapExcept {α β : Type} (f : α → Except String β) :
    List α → Except String (List β)
  | [] => .ok []
  | x :: xs =>
      match f x with
      | .error e => .error e
      | .ok y =>
          match mapExcept f xs with
          | .error e => .error e
          | .ok ys => .ok (y :: ys)

/-- Source: `_merge_ui_state` (main.py lines 157-181).  `if not updated_config:` — a
pydantic model instance is always truthy, so the test is `updated_config is
None`. -/
def _merge_ui_state (current_ui : UIState) (updated_config : Option UIState) :
    Except String UIState :=
  match updated_config with
  | none => .ok current_ui
  | some u =>
      let existing := buildDict current_ui.components
      match mapExcept (fun comp => mergeOne (dictGet existing comp.id) comp)
          u.components with
      | .error e => .error e
      | .ok merged =>
          let updatedIds := u.components.map (fun c => c.id)
          let preserved := existing.filterMap
            (fun p => if p.1 ∈ updatedIds then none else some p.2)
          .ok { theme := themeOr u.theme current_ui.theme,
                components := merged ++ preserved }

/-- Source: `adjust_ui` (main.py lines 243-266) from the point where the agent's
result is in hand: a failed result is returned as a rejection; otherwise the
current state is merged with `agent_result.updatedConfig or
typed_request.current_ui` (Python `or`: `None` falls back to the current
state) and returned as the success body. -/
def adjust_ui (current_ui : UIState) (agent_result : AgentResult) :
    Except String AdjustResponse :=
  if agent_result.success then
    match _merge_ui_state current_ui
        (some (agent_result.updatedConfig.getD current_ui)) with
    | .error e => .error e
    | .ok merged =>
        .ok (.accepted (pyOrStr agent_result.message "Configuration updated.")
          merged)
  else .ok (.rejected (pyOrStr agent_result.message "Command rejected."))

/-! ## Response extractor (`agent.py`, lines 31-95)

Raw model output is processed as a character list.  The regular expressions in
the source use only literal text, `\s*` runs, and anchors, so they are
embedded as direct scanners with the same match semantics. -/

/-- The backquote character (0x60), the brace characters (0x7b / 0x7d). -/
def btick : Char := Char.ofNat 96

def obrace : Char := Char.ofNat 123

def cbrace : Char := Char.ofNat 125

/-- ASCII membership of Python's `\s` class / `str.strip()` default set:
space, tab, newline, carriage return, vertical tab, form feed (the inputs in
question are ASCII model output). -/
def isPySpace (c : Char) : Bool :=
  c = ' ' || c = '\t' || c = '\n' || c = '\r' || c = Char.ofNat 11 ||
    c = Char.ofNat 12

/-- Source: `str.strip()`. -/
def pyStrip (l : List Char) : List Char :=
  ((l.dropWhile isPySpace).reverse.dropWhile isPySpace).reverse

/-- Is `lit` a prefix of `l`?  Returns the remainder when so. -/
def expectLit : List Char → List Char → Option (List Char)
  | [], l => some l
  | _, [] => none
  | c :: cs, x :: xs => if c = x then expectLit cs xs else none

/-- One attempted match of `re.sub(r"```json\s*", "", ...)` (IGNORECASE) at
the head of the text: three backquotes, then `json` in any case, then the
maximal whitespace run; on success returns the remainder after the match. -/
def matchFenceOpen (l : List Char) : Option (List Char) :=
  match expectLit [btick, btick, btick] l with
  | none => none
  | some r1 =>
      match r1 with
      | j :: s :: o :: n :: rest =>
          if j.toLower = 'j' && s.toLower = 's' && o.toLower = 'o' &&
              n.toLower = 'n' then
            some (rest.dropWhile isPySpace)
          else none
      | _ => none

/-- Left-to-right non-overlapping substitution scan for the opening-fence
pattern: delete each match, keep every other character.  Each step consumes at
least one character, so fuel equal to the length suffices. -/
def subFenceOpen (fuel : Nat) (l : List Char) : List Char :=
  match fuel with
  | 0 => l
  | fuel + 1 =>
      match l with
      | [] => []
      | c :: rest =>
          match matchFenceOpen (c :: rest) with
          | some rem => subFenceOpen fuel rem
          | none => c :: subFenceOpen fuel rest

def stripFenceOpen (l : List Char) : List Char := subFenceOpen l.length l

/-- One attempted match of `re.sub(r"```\s*$", "", ..., flags=MULTILINE)` at
the head of the text: three backquotes, then greedily as much whitespace as
possible subject to `$` (end of string, or position just before a `'\n'`)
holding afterwards.  With `run` the maximal whitespace run after the
backquotes: if the run reaches the end of the string the whole run is
consumed; otherwise the greedy engine backs off to the largest prefix of the
run that stops just before the run's last `'\n'`; if the run holds no newline
and does not reach the end, the pattern does not match here.  Returns the
unconsumed remainder on success. -/
def matchFenceClose (l : List Char) : Option (List Char) :=
  match expectLit [btick, btick, btick] l with
  | none => none
  | some rest =>
      let run := rest.takeWhile isPySpace
      let tail := rest.drop run.length
      if tail.isEmpty then some []
      else if run.contains '\n' then
        some (('\n' :: (run.reverse.takeWhile (fun ch => ch ≠ '\n')).reverse)
          ++ tail)
      else none

def subFenceClose (fuel : Nat) (l : List Char) : List Char :=
  match fuel with
  | 0 => l
  | fuel + 1 =>
      match l with
      | [] => []
      | c :: rest =>
          match matchFenceClose (c :: rest) with
          | some rem => subFenceClose fuel rem
          | none => c :: subFenceClose fuel rest

def stripFenceClose (l : List Char) : List Char := subFenceClose l.length l

/-- Lines 42-44 of agent.py: strip the two fence patterns, then `.strip()`. -/
def cleanLocal (raw : List Char) : List Char :=
  pyStrip (stripFenceClose (stripFenceOpen raw))

/-- Does `re.search(r'"success"\s*:\s*(true|false)')` match at the head of the
text?  Literal `"success"`, maximal whitespace, `:`, maximal whitespace, then
the literal `true` or `false`. -/
def matchSuccessAt (l : List Char) : Bool :=
  match l with
  | q1 :: s1 :: u :: c1 :: c2 :: e :: s2 :: s3 :: q2 :: rest =>
      if q1 = '"' && s1 = 's' && u = 'u' && c1 = 'c' && c2 = 'c' &&
          e = 'e' && s2 = 's' && s3 = 's' && q2 = '"' then
        let r1 := rest.dropWhile isPySpace
        match r1 with
        | ':' :: r2 =>
            let r3 := r2.dropWhile isPySpace
            match r3 with
            | 't' :: 'r' :: 'u' :: 'e' :: _ => true
            | 'f' :: 'a' :: 'l' :: 's' :: 'e' :: _ => true
            | _ => false
        | _ => false
      else false
  | _ => false

def searchSuccessGo : List Char → Nat → Option Nat
  | [], _ => none
  | c :: r, i =>
      if matchSuccessAt (c :: r) then some i else searchSuccessGo r (i + 1)

/-- Source: `value_match.start()` of the leftmost discriminator match, if any. -/
def searchSuccess (l : List Char) : Option Nat := searchSuccessGo l 0

/-- Source: `raw_content[i]` as an option. -/
def charAt (l : List Char) (i : Nat) : Option Char := (l.drop i).head?

/-- Lines 52-57: `for i in range(value_pos, -1, -1): if raw_content[i] == "{":
start_pos = i; break` — nearest opening brace at or before the match start,
defaulting to the match start itself. -/
def backBrace (l : List Char) (vp : Nat) : Nat :=
  (((List.range (vp + 1)).reverse).find? (fun i => charAt l i = some obrace)).getD vp

/-- Brace-depth walk (lines 60-69 and 79-88): starting depth 0 at index `i`,
`+1` on `{`, `-1` on `}`; the first return of the depth to zero *after a
closing brace* ends the span at `i + 1`.  Returns `none` when the loop runs
off the end without the depth ever returning to zero (the Python loop then
leaves `end_pos` at its initial value). -/
def fwdGo : List Char → Nat → Int → Option Nat
  | [], _, _ => none
  | c :: r, i, depth =>
      if c = obrace then fwdGo r (i + 1) (depth + 1)
      else if c = cbrace then
        if depth - 1 = 0 then some (i + 1) else fwdGo r (i + 1) (depth - 1)
      else fwdGo r (i + 1) depth

def forwardScan (l : List Char) (start : Nat) : Option Nat :=
  fwdGo (l.drop start) start 0

/-- Source: `raw_content[a:b]`. -/
def pySlice (l : List Char) (a b : Nat) : List Char := (l.take b).drop a

/-- Source: `re.finditer(r"\{", ...)`: the indices of every opening brace, ascending. -/
def bracePositions (l : List Char) : List Nat :=
  (List.range l.length).filter (fun i => charAt l i = some obrace)

/-- Lines 75-88: every balanced `{...}` span, in order of its opening brace;
positions where the depth never returns to zero contribute nothing. -/
def allSpans (l : List Char) : List (List Char) :=
  (bracePositions l).filterMap
    (fun i => (forwardScan l i).map (fun e => pySlice l i e))

/-- Source: `max(json_objects, key=len)`: the first span of maximal length (Python's
`max` replaces the running best only on a strictly greater key). -/
def maxByLen : List (List Char) → Option (List Char)
  | [] => none
  | x :: xs =>
      some (List.foldl (fun best y =>
        if best.length < y.length then y else best) x xs)

/-- Source: `extract_json_from_response` (agent.py lines 31-95). -/
def extract_json_from_response (raw_content : List Char)
    (is_local_model : Bool) : List Char :=
  if is_local_model then
    let s := cleanLocal raw_content
    match searchSuccess s with
    | some vp =>
        let sp := backBrace s vp
        let ep := (forwardScan s sp).getD sp
        pySlice s sp ep
    | none =>
        match maxByLen (allSpans s) with
        | some best => best
        | none => s
  else pyStrip raw_content

/-! ## `json.loads` and `parse_agent_response` (agent.py lines 98-114)

A model of CPython's `json.loads` on character lists: JSON values per RFC 8259
plus the `NaN` / `Infinity` / `-Infinity` constants the default decoder
accepts; strict control-character rejection inside strings; a final
"Extra data" check after the first value.  Numbers are carried as an exact
mantissa/decimal-exponent pair (their values are never inspected here).
Recursion is bounded by a fuel parameter amply larger than the input, so the
parser is total; exhausted fuel surfaces as a decode error. -/

/-- JSON whitespace skipped by the decoder: space, tab, newline, return. -/
def isJsonWs (c : Char) : Bool := c = ' ' || c = '\t' || c = '\n' || c = '\r'

def isDigit (c : Char) : Bool := '0' ≤ c && c ≤ '9'

def isHexDigit (c : Char) : Bool :=
  isDigit c || ('a' ≤ c && c ≤ 'f') || ('A' ≤ c && c ≤ 'F')

inductive JsonValue where
  | null
  | bool (b : Bool)
  | num (mantissa : Int) (exp10 : Int)
  | nan
  | inf (neg : Bool)
  | str (s : List Char)
  | arr (elems : List JsonValue)
  | obj (fields : List (List Char × JsonValue))

def hexVal (c : Char) : Nat :=
  if isDigit c then c.toNat - '0'.toNat
  else if 'a' ≤ c && c ≤ 'f' then c.toNat - 'a'.toNat + 10
  else c.toNat - 'A'.toNat + 10

def digitsToNat (ds : List Char) : Nat :=
  ds.foldl (fun acc c => acc * 10 + (c.toNat - '0'.toNat)) 0

/-- String body after the opening quote, with escapes; accumulator reversed. -/
def parseStr (fuel : Nat) (acc : List Char) (l : List Char) :
    Except String (List Char × List Char) :=
  match fuel with
  | 0 => .error "recursion limit"
  | fuel + 1 =>
      match l with
      | [] => .error "Unterminated string"
      | c :: r =>
          if c = '"' then .ok (acc.reverse, r)
          else if c = '\\' then
            match r with
            | [] => .error "Unterminated string"
            | e :: r2 =>
                if e = '"' then parseStr fuel ('"' :: acc) r2
                else if e = '\\' then parseStr fuel ('\\' :: acc) r2
                else if e = '/' then parseStr fuel ('/' :: acc) r2
                else if e = 'b' then parseStr fuel (Char.ofNat 8 :: acc) r2
                else if e = 'f' then parseStr fuel (Char.ofNat 12 :: acc) r2
                else if e = 'n' then parseStr fuel ('\n' :: acc) r2
                else if e = 'r' then parseStr fuel ('\r' :: acc) r2
                else if e = 't' then parseStr fuel ('\t' :: acc) r2
                else if e = 'u' then
                  match r2 with
                  | h1 :: h2 :: h3 :: h4 :: r3 =>
                      if isHexDigit h1 && isHexDigit h2 && isHexDigit h3 &&
                          isHexDigit h4 then
                        let code := ((hexVal h1 * 16 + hexVal h2) * 16 +
                          hexVal h3) * 16 + hexVal h4
                        parseStr fuel (Char.ofNat code :: acc) r3
                      else .error "Invalid \\uXXXX escape"
                  | _ => .error "Invalid \\uXXXX escape"
                else .error "Invalid \\escape"
          else if c.toNat < 32 then .error "Invalid control character"
          else parseStr fuel (c :: acc) r

/-- The decoder's `NUMBER_RE`: `-?(0|[1-9]\d*)(\.\d+)?([eE][-+]?\d+)?`.
Expects at least one digit (leading zeros end the integer part, as in the
regex); the fractional part and exponent are consumed only when complete. -/
def parseNum (l : List Char) : Except String (JsonValue × List Char) :=
  let sign : Int := if l.head? = some '-' then -1 else 1
  let l1 := if l.head? = some '-' then l.drop 1 else l
  match l1 with
  | [] => .error "Expecting value"
  | d :: _ =>
      if !isDigit d then .error "Expecting value"
      else
        let intDigits := if d = '0' then ['0'] else l1.takeWhile isDigit
        let l2 := l1.drop intDigits.length
        let fracDigits :=
          match l2 with
          | '.' :: rest =>
              let fd := rest.takeWhile isDigit
              if fd.isEmpty then [] else fd
          | _ => []
        let l3 := if fracDigits.isEmpty then l2
          else l2.drop (1 + fracDigits.length)
        let expPart : Option (Int × Nat) :=
          match l3 with
          | e :: rest =>
              if e = 'e' || e = 'E' then
                let (esign, rest2) : Int × List Char :=
                  match rest with
                  | '+' :: rr => (1, rr)
                  | '-' :: rr => (-1, rr)
                  | _ => (1, rest)
                let ed := rest2.takeWhile isDigit
                if ed.isEmpty then none
                else some (esign * Int.ofNat (digitsToNat ed),
                  1 + (rest.length - rest2.length) + ed.length)
              else none
          | _ => none
        let l4 :=
          match expPart with
          | some (_, consumed) => l3.drop consumed
          | none => l3
        let mant : Int := sign * Int.ofNat (digitsToNat (intDigits ++ fracDigits))
        let e10 : Int :=
          (match expPart with | some (ev, _) => ev | none => 0) -
            Int.ofNat fracDigits.length
        .ok (.num mant e10, l4)

mutual

/-- One JSON value at the head of the text (leading whitespace skipped, as at
every decoder call site). -/
def parseVal (fuel : Nat) (l : List Char) :
    Except String (JsonValue × List Char) :=
  match fuel with
  | 0 => .error "recursion limit"
  | fuel + 1 =>
      match l.dropWhile isJsonWs with
      | [] => .error "Expecting value"
      | c :: rest =>
          if c = '"' then
            match parseStr fuel [] rest with
            | .ok (s, r) => .ok (.str s, r)
            | .error e => .error e
          else if c = obrace then parseObj fuel rest
          else if c = '[' then parseArr fuel rest
          else
            match expectLit ['t', 'r', 'u', 'e'] (c :: rest) with
            | some r => .ok (.bool true, r)
            | none =>
            match expectLit ['f', 'a', 'l', 's', 'e'] (c :: rest) with
            | some r => .ok (.bool false, r)
            | none =>
            match expectLit ['n', 'u', 'l', 'l'] (c :: rest) with
            | some r => .ok (.null, r)
            | none =>
            match expectLit ['N', 'a', 'N'] (c :: rest) with
            | some r => .ok (.nan, r)
            | none =>
            match expectLit ['I', 'n', 'f', 'i', 'n', 'i', 't', 'y'] (c :: rest) with
            | some r => .ok (.inf false, r)
            | none =>
            match expectLit ['-', 'I', 'n', 'f', 'i', 'n', 'i', 't', 'y'] (c :: rest) with
            | some r => .ok (.inf true, r)
            | none => parseNum (c :: rest)

/-- Object body after the opening brace. -/
def parseObj (fuel : Nat) (l : List Char) :
    Except String (JsonValue × List Char) :=
  match fuel with
  | 0 => .error "recursion limit"
  | fuel + 1 =>
      match l.dropWhile isJsonWs with
      | [] => .error "Expecting property name enclosed in double quotes"
      | c :: rest =>
          if c = cbrace then .ok (.obj [], rest)
          else parseMembers fuel (c :: rest) []

/-- Members of an object, expecting a `"key": value` pair first. -/
def parseMembers (fuel : Nat) (l : List Char)
    (acc : List (List Char × JsonValue)) :
    Except String (JsonValue × List Char) :=
  match fuel with
  | 0 => .error "recursion limit"
  | fuel + 1 =>
      match l with
      | '"' :: rest =>
          (match parseStr fuel [] rest with
          | .error e => .error e
          | .ok (key, r1) =>
              match r1.dropWhile isJsonWs with
              | ':' :: r2 =>
                  (match parseVal fuel r2 with
                  | .error e => .error e
                  | .ok (v, r3) =>
                      match r3.dropWhile isJsonWs with
                      | ',' :: r4 =>
                          parseMembers fuel (r4.dropWhile isJsonWs)
                            (acc ++ [(key, v)])
                      | c :: r4 =>
                          if c = cbrace then .ok (.obj (acc ++ [(key, v)]), r4)
                          else .error "Expecting ',' delimiter"
                      | [] => .error "Expecting ',' delimiter")
              | _ => .error "Expecting ':' delimiter")
      | _ => .error "Expecting property name enclosed in double quotes"

/-- Elements of an array after the opening bracket. -/
def parseArr (fuel : Nat) (l : List Char) :
    Except String (JsonValue × List Char) :=
  match fuel with
  | 0 => .error "recursion limit"
  | fuel + 1 =>
      match l.dropWhile isJsonWs with
      | ']' :: rest => .ok (.arr [], rest)
      | l1 => parseElems fuel l1 []

def parseElems (fuel : Nat) (l : List Char) (acc : List JsonValue) :
    Except String (JsonValue × List Char) :=
  match fuel with
  | 0 => .error "recursion limit"
  | fuel + 1 =>
      match parseVal fuel l with
      | .error e => .error e
      | .ok (v, r1) =>
          match r1.dropWhile isJsonWs with
          | ',' :: r2 => parseElems fuel r2 (acc ++ [v])
          | ']' :: r2 => .ok (.arr (acc ++ [v]), r2)
          | _ => .error "Expecting ',' delimiter"

end

/-- Source: `json.loads`: one value, then only whitespace may remain. -/
def jsonLoads (l : List Char) : Except String JsonValue :=
  match parseVal (8 * l.length + 16) l with
  | .error e => .error e
  | .ok (v, rest) =>
      if (rest.dropWhile isJsonWs).isEmpty then .ok v
      else .error "Extra data"

/-- Source: `fastapi.HTTPException` as raised by the parsing layer. -/
structure HTTPError where
  status_code : Nat
  detail : String
deriving DecidableEq, Repr

/-- Source: `parse_agent_response` (agent.py lines 98-114): extract, then decode; a
decode failure is re-raised as a catchable `HTTPException(502, "解析代理响应失败:
...")` carrying the decoder's message. -/
def parse_agent_response (raw_content : List Char) (is_local_model : Bool) :
    Except HTTPError JsonValue :=
  match jsonLoads (extract_json_from_response raw_content is_local_model) with
  | .ok parsed => .ok parsed
  | .error e => .error { status_code := 502, detail := "解析代理响应失败: " ++ e }

/-! ## Concrete states used in the theorems below -/

/-- A freshly constructed component with table label and table core flag, the
shape the frontend supplies. -/
def stdComp (i : CompId) (z : Zone) (ord : Int) : ComponentConfig :=
  { id := i, label := metaLabel i, visible := true, zone := z, order := ord,
    color := none, bgColor := none, scale := some 1, isCore := metaIsCore i,
    visualizationType := none }

/-- The canonical five-component display the frontend ships. -/
def demoUI : UIState :=
  { theme := Theme.dark,
    components := [stdComp .altitude .primary 0, stdComp .airspeed .primary 1,
      stdComp .rpm .primary 2, stdComp .phase .primary 3,
      stdComp .fuel .secondary 4] }

/-- A model proposal that hides `altitude` and drops it to the secondary
zone — the exact thing the safety rules forbid. -/
def hiddenAltitude : ComponentConfig :=
  { stdComp .altitude .secondary 0 with visible := false }

def evilProposal : UIState := { theme := Theme.dark, components := [hiddenAltitude] }

def evilAgentResult : AgentResult :=
  { success := true, message := some "ok", updatedConfig := some evilProposal }

/-- Prior `fuel` carrying an explicit color the proposal does not mention. -/
def redFuel : ComponentConfig := { stdComp .fuel .primary 4 with color := some "red" }

/-- The proposal's `fuel`: moved to the secondary zone, `color` left unset
(pydantic stores `None`). -/
def movedFuel : ComponentConfig := stdComp .fuel .secondary 4

/-- Two distinct components sharing the id `fuel` (the `UIState` constructor
accepts this). -/
def fuelA : ComponentConfig := stdComp .fuel .primary 7

def fuelB : ComponentConfig := stdComp .fuel .secondary 8

/-! ## Supporting lemmas -/

instance {ε α : Type} [DecidableEq ε] [DecidableEq α] :
    DecidableEq (Except ε α) := fun a b =>
  match a, b with
  | .ok x, .ok y =>
      if h : x = y then .isTrue (by rw [h])
      else .isFalse (fun hh => h (Except.ok.inj hh))
  | .error x, .error y =>
      if h : x = y then .isTrue (by rw [h])
      else .isFalse (fun hh => h (Except.error.inj hh))
  | .ok _, .error _ => .isFalse (fun hh => Except.noConfusion hh)
  | .error _, .ok _ => .isFalse (fun hh => Except.noConfusion hh)

/-- Re-running the constructor on a component's own serialization gives the
component back, provided the component satisfies the constructor's invariants
(non-empty label, in-range scale). -/
theorem valid_reconstruct (c : ComponentConfig) (h : validB c = true) :
    mkComponentConfig (toRaw c) = .ok c := by
  obtain ⟨i, lab, vis, z, ord, col, bg, sc, core, viz⟩ := c
  simp only [validB, Bool.and_eq_true, Bool.not_eq_true'] at h
  cases sc with
  | none =>
      simp [mkComponentConfig, toRaw, defaultedLabel, defaultedIsCore, h.1]
  | some x =>
      have hx : scaleOk x = true := by simpa using h.2
      simp [mkComponentConfig, toRaw, defaultedLabel, defaultedIsCore, h.1, hx]

/-- The overlay `{**fallback.dict(), **source}` is the source record. -/
theorem overlayDicts_eq (fb r : RawComponent) : overlayDicts fb r = r := rfl

/-- For a component satisfying the constructor invariants, the merge loop body
returns the proposed component unchanged whatever the prior fallback was. -/
theorem mergeOne_ok (c : ComponentConfig) (h : validB c = true)
    (fb : Option ComponentConfig) : mergeOne fb c = .ok c := by
  cases fb with
  | none => rfl
  | some f =>
      show mkComponentConfig (overlayDicts (toRaw f) (toRaw c)) = .ok c
      rw [overlayDicts_eq]
      exact valid_reconstruct c h

theorem mapExcept_id {α : Type} (f : α → Except String α) (l : List α)
    (h : ∀ a ∈ l, f a = .ok a) : mapExcept f l = .ok l := by
  induction l with
  | nil => rfl
  | cons x xs ih =>
      have hx := h x (List.mem_cons_self x xs)
      have hxs := ih (fun a ha => h a (List.mem_cons_of_mem _ ha))
      simp [mapExcept, hx, hxs]

/-- Every entry of the Python dict maps an id to a component carrying it. -/
theorem dictInsert_pair_id (d : List (CompId × ComponentConfig))
    (c : ComponentConfig) (hd : ∀ p ∈ d, p.2.id = p.1) :
    ∀ p ∈ dictInsert d c, p.2.id = p.1 := by
  intro p hp
  unfold dictInsert at hp
  by_cases hc : (d.any fun q => decide (q.1 = c.id)) = true
  · rw [if_pos hc] at hp
    obtain ⟨q, hq, he⟩ := List.mem_map.mp hp
    by_cases hqc : q.1 = c.id
    · rw [if_pos hqc] at he
      rw [← he]
      exact hqc.symm
    · rw [if_neg hqc] at he
      rw [← he]
      exact hd q hq
  · rw [if_neg hc] at hp
    rcases List.mem_append.mp hp with hp | hp
    · exact hd p hp
    · simp at hp
      rw [hp]

theorem keys_dictInsert (d : List (CompId × ComponentConfig))
    (c : ComponentConfig) :
    (dictInsert d c).map Prod.fst =
      if c.id ∈ d.map Prod.fst then d.map Prod.fst
      else d.map Prod.fst ++ [c.id] := by
  unfold dictInsert
  by_cases h : (d.any fun p => decide (p.1 = c.id)) = true
  · have hm : c.id ∈ d.map Prod.fst := by
      simp only [List.any_eq_true, decide_eq_true_eq] at h
      obtain ⟨p, hp, he⟩ := h
      exact List.mem_map.mpr ⟨p, hp, he⟩
    rw [if_pos h, if_pos hm, List.map_map]
    apply List.map_congr_left
    intro p _
    by_cases hpc : p.1 = c.id
    · simp [hpc]
    · simp [hpc]
  · have hm : c.id ∉ d.map Prod.fst := by
      intro hmem
      obtain ⟨p, hp, he⟩ := List.mem_map.mp hmem
      exact h (List.any_eq_true.mpr ⟨p, hp, by simp [he]⟩)
    rw [if_neg h, if_neg hm]
    simp

theorem pair_id_foldl (l : List ComponentConfig) :
    ∀ d, (∀ p ∈ d, p.2.id = p.1) →
      ∀ p ∈ List.foldl dictInsert d l, p.2.id = p.1 := by
  induction l with
  | nil => intro d hd; simpa using hd
  | cons c t ih =>
      intro d hd
      rw [List.foldl_cons]
      exact ih (dictInsert d c) (dictInsert_pair_id d c hd)

theorem mem_keys_foldl (l : List ComponentConfig) :
    ∀ (d : List (CompId × ComponentConfig)) (i : CompId),
      (i ∈ (List.foldl dictInsert d l).map Prod.fst ↔
        i ∈ d.map Prod.fst ∨ i ∈ l.map (fun c => c.id)) := by
  induction l with
  | nil => simp
  | cons c t ih =>
      intro d i
      rw [List.foldl_cons, ih]
      rw [keys_dictInsert]
      by_cases h : c.id ∈ d.map Prod.fst
      · rw [if_pos h]
        simp only [List.map_cons, List.mem_cons]
        constructor
        · rintro (hd | ht)
          · exact Or.inl hd
          · exact Or.inr (Or.inr ht)
        · rintro (hd | rfl | ht)
          · exact Or.inl hd
          · exact Or.inl h
          · exact Or.inr ht
      · rw [if_neg h]
        simp only [List.mem_append, List.mem_singleton, List.map_cons,
          List.mem_cons]
        tauto

theorem keys_nodup_foldl (l : List ComponentConfig) :
    ∀ d, ((d.map Prod.fst).Nodup) →
      ((List.foldl dictInsert d l).map Prod.fst).Nodup := by
  induction l with
  | nil => intro d hd; simpa using hd
  | cons c t ih =>
      intro d hd
      rw [List.foldl_cons]
      apply ih
      rw [keys_dictInsert]
      by_cases h : c.id ∈ d.map Prod.fst
      · rwa [if_pos h]
      · rw [if_neg h]
        simp [List.nodup_append, hd, h]

theorem mem_keys_buildDict (comps : List ComponentConfig) (i : CompId) :
    i ∈ (buildDict comps).map Prod.fst ↔ i ∈ comps.map (fun c => c.id) := by
  unfold buildDict
  rw [mem_keys_foldl]
  simp

theorem keys_nodup_buildDict (comps : List ComponentConfig) :
    ((buildDict comps).map Prod.fst).Nodup := by
  unfold buildDict
  exact keys_nodup_foldl comps [] (by simp)

theorem pair_id_buildDict (comps : List ComponentConfig) :
    ∀ p ∈ buildDict comps, p.2.id = p.1 := by
  unfold buildDict
  exact pair_id_foldl comps [] (by simp)

/-- On a component list with pairwise-distinct ids the Python dict is just the
list of `(id, component)` pairs in order. -/
theorem foldl_dictInsert_nodup (l : List ComponentConfig) :
    ∀ d, (l.map (fun c => c.id)).Nodup →
      (∀ c ∈ l, c.id ∉ d.map Prod.fst) →
      List.foldl dictInsert d l = d ++ l.map (fun c => (c.id, c)) := by
  induction l with
  | nil => simp
  | cons c t ih =>
      intro d hn hd
      rw [List.foldl_cons]
      have hins : dictInsert d c = d ++ [(c.id, c)] := by
        unfold dictInsert
        have hfalse : (d.any fun p => decide (p.1 = c.id)) = false := by
          rw [List.any_eq_false]
          intro p hp
          simp only [decide_eq_true_eq]
          intro he
          exact hd c (List.mem_cons_self c t) (List.mem_map.mpr ⟨p, hp, he⟩)
        simp [hfalse]
      rw [hins, ih (d ++ [(c.id, c)]) (List.nodup_cons.mp hn).2]
      · simp
      · intro c' hc'
        have h1 : c'.id ∉ d.map Prod.fst :=
          hd c' (List.mem_cons_of_mem _ hc')
        have h2 : c'.id ≠ c.id := by
          intro he
          exact (List.nodup_cons.mp hn).1 (List.mem_map.mpr ⟨c', hc', he⟩)
        simp [h1, h2]

theorem buildDict_nodup (l : List ComponentConfig)
    (hn : (l.map (fun c => c.id)).Nodup) :
    buildDict l = l.map (fun c => (c.id, c)) := by
  unfold buildDict
  rw [foldl_dictInsert_nodup l [] hn (by simp)]
  simp

/-- Project the preserved-components loop onto ids. -/
theorem preserved_ids (d : List (CompId × ComponentConfig))
    (uids : List CompId) (h : ∀ p ∈ d, p.2.id = p.1) :
    (d.filterMap (fun p => if p.1 ∈ uids then none else some p.2)).map
        (fun c => c.id) =
      (d.map Prod.fst).filter (fun i => !decide (i ∈ uids)) := by
  induction d with
  | nil => rfl
  | cons p t ih =>
      have hp := h p (List.mem_cons_self p t)
      have iht := ih (fun q hq => h q (List.mem_cons_of_mem _ hq))
      by_cases hu : p.1 ∈ uids
      · simp [List.filterMap_cons, hu, List.filter_cons, iht]
      · simp [List.filterMap_cons, hu, List.filter_cons, iht, hp]

theorem dictGet_of_mem_keys (d : List (CompId × ComponentConfig)) (i : CompId)
    (h : i ∈ d.map Prod.fst) : ∃ v, dictGet d i = some v := by
  unfold dictGet
  obtain ⟨p, hp, he⟩ := List.mem_map.mp h
  have hs : (d.find? fun q => decide (q.1 = i)).isSome := by
    rw [List.find?_isSome]
    exact ⟨p, hp, by simp [he]⟩
  obtain ⟨q, hq⟩ := Option.isSome_iff_exists.mp hs
  exact ⟨q.2, by rw [hq]; rfl⟩

theorem matchFenceOpen_none (l : List Char) (h : btick ∉ l) :
    matchFenceOpen l = none := by
  cases l with
  | nil => rfl
  | cons c r =>
      have hc : ¬ btick = c := fun he => h (he ▸ List.mem_cons_self c r)
      unfold matchFenceOpen expectLit
      simp [hc]

theorem matchFenceClose_none (l : List Char) (h : btick ∉ l) :
    matchFenceClose l = none := by
  cases l with
  | nil => rfl
  | cons c r =>
      have hc : ¬ btick = c := fun he => h (he ▸ List.mem_cons_self c r)
      unfold matchFenceClose expectLit
      simp [hc]

theorem subFenceOpen_id (f : Nat) (l : List Char) (h : btick ∉ l) :
    subFenceOpen f l = l := by
  induction f generalizing l with
  | zero => rfl
  | succ f ih =>
      cases l with
      | nil => rfl
      | cons c r =>
          have hm := matchFenceOpen_none (c :: r) h
          have hr : btick ∉ r := fun hmem => h (List.mem_cons_of_mem c hmem)
          simp [subFenceOpen, hm, ih r hr]

theorem subFenceClose_id (f : Nat) (l : List Char) (h : btick ∉ l) :
    subFenceClose f l = l := by
  induction f generalizing l with
  | zero => rfl
  | succ f ih =>
      cases l with
      | nil => rfl
      | cons c r =>
          have hm := matchFenceClose_none (c :: r) h
          have hr : btick ∉ r := fun hmem => h (List.mem_cons_of_mem c hmem)
          simp [subFenceClose, hm, ih r hr]

/-- Fence stripping is the identity on backquote-free text. -/
theorem cleanLocal_id (l : List Char) (hb : btick ∉ l)
    (hs : pyStrip l = l) : cleanLocal l = l := by
  unfold cleanLocal stripFenceOpen stripFenceClose
  rw [subFenceOpen_id l.length l hb, subFenceClose_id l.length l hb, hs]

theorem pySlice_full (l : List Char) : pySlice l 0 l.length = l := by
  simp [pySlice]

theorem foldl_maxByLen_sound (xs : List (List Char)) :
    ∀ x : List Char,
      (List.foldl (fun best y => if best.length < y.length then y else best)
          x xs = x ∨
        List.foldl (fun best y => if best.length < y.length then y else best)
          x xs ∈ xs) ∧
      x.length ≤ (List.foldl
        (fun best y => if best.length < y.length then y else best)
          x xs).length ∧
      ∀ y ∈ xs, y.length ≤ (List.foldl
        (fun best y => if best.length < y.length then y else best)
          x xs).length := by
  induction xs with
  | nil => intro x; simp
  | cons z zs ih =>
      intro x
      rw [List.foldl_cons]
      by_cases h : x.length < z.length
      · rw [if_pos h]
        obtain ⟨hmem, hge, hall⟩ := ih z
        refine ⟨?_, ?_, ?_⟩
        · rcases hmem with hm | hm
          · exact Or.inr (by rw [hm]; exact List.mem_cons_self z zs)
          · exact Or.inr (List.mem_cons_of_mem z hm)
        · exact le_trans (le_of_lt h) hge
        · intro y hy
          rcases List.mem_cons.mp hy with rfl | hy
          · exact hge
          · exact hall y hy
      · rw [if_neg h]
        obtain ⟨hmem, hge, hall⟩ := ih x
        refine ⟨hmem.imp id (List.mem_cons_of_mem z), hge, ?_⟩
        intro y hy
        rcases List.mem_cons.mp hy with rfl | hy
        · exact le_trans (le_of_not_lt h) hge
        · exact hall y hy

theorem maxByLen_spec (xs : List (List Char)) (m : List Char)
    (h : maxByLen xs = some m) : m ∈ xs ∧ ∀ y ∈ xs, y.length ≤ m.length := by
  cases xs with
  | nil => exact absurd h (by simp [maxByLen])
  | cons x t =>
      have hm : List.foldl
          (fun best y => if best.length < y.length then y else best) x t = m :=
        Option.some.inj h
      obtain ⟨hmem, hge, hall⟩ := foldl_maxByLen_sound t x
      rw [hm] at hmem hge hall
      refine ⟨?_, ?_⟩
      · rcases hmem with rfl | hm2
        · exact List.mem_cons_self m t
        · exact List.mem_cons_of_mem x hm2
      · intro y hy
        rcases List.mem_cons.mp hy with rfl | hy
        · exact hge
        · exact hall y hy

/-- Shape of a successful merge with a proposal whose components all satisfy
the constructor invariants: the result carries the proposal's theme, the
proposal's components verbatim, then the prior dict's entries for unmentioned
ids in first-occurrence order. -/
theorem merge_components (P U : UIState)
    (hU : ∀ c ∈ U.components, validB c = true) :
    _merge_ui_state P (some U) = .ok
      { theme := U.theme,
        components := U.components ++ (buildDict P.components).filterMap
          (fun p => if p.1 ∈ U.components.map (fun c => c.id) then none
            else some p.2) } := by
  have hmap : mapExcept
      (fun comp => mergeOne (dictGet (buildDict P.components) comp.id) comp)
      U.components = .ok U.components :=
    mapExcept_id _ _ (fun c hc => mergeOne_ok c (hU c hc) _)
  simp [_merge_ui_state, hmap, themeOr]

/-- Merging a state with itself reproduces it (given its components satisfy
the constructor invariants). -/
theorem merge_self (P : UIState)
    (hP : ∀ c ∈ P.components, validB c = true) :
    _merge_ui_state P (some P) = .ok P := by
  rw [merge_components P P hP]
  have hnil : (buildDict P.components).filterMap
      (fun p => if p.1 ∈ P.components.map (fun c => c.id) then none
        else some p.2) = [] := by
    rw [List.filterMap_eq_nil_iff]
    intro p hp
    have : p.1 ∈ P.components.map (fun c => c.id) := by
      rw [← mem_keys_buildDict]
      exact List.mem_map.mpr ⟨p, hp, rfl⟩
    simp [this]
  rw [hnil]
  simp

/-- Any successful merge with a present proposal has the fixed shape: the
proposal's theme, the mapped-through mentioned components, then the preserved
prior entries. -/
theorem merge_some_shape (P U S : UIState)
    (hM : _merge_ui_state P (some U) = .ok S) :
    ∃ merged,
      mapExcept
        (fun comp => mergeOne (dictGet (buildDict P.components) comp.id) comp)
        U.components = .ok merged ∧
      S = { theme := U.theme,
            components := merged ++ (buildDict P.components).filterMap
              (fun p => if p.1 ∈ U.components.map (fun c => c.id) then none
                else some p.2) } := by
  have h0 : _merge_ui_state P (some U) =
      match mapExcept
          (fun comp => mergeOne (dictGet (buildDict P.components) comp.id) comp)
          U.components with
      | .error e => .error e
      | .ok merged =>
          .ok { theme := themeOr U.theme P.theme,
                components := merged ++ (buildDict P.components).filterMap
                  (fun p => if p.1 ∈ U.components.map (fun c => c.id) then none
                    else some p.2) } := rfl
  rw [h0] at hM
  cases hmap : mapExcept
      (fun comp => mergeOne (dictGet (buildDict P.components) comp.id) comp)
      U.components with
  | error e => rw [hmap] at hM; exact absurd hM (by simp)
  | ok merged =>
      rw [hmap] at hM
      exact ⟨merged, rfl, (Except.ok.inj hM).symm⟩

/-! ## Claims -/

/-- C1: the claim says every success response has all core components visible
and in the primary zone regardless of the proposal.  The code enforces
nothing: a success result whose proposal hides `altitude` and moves it to the
secondary zone flows through `_merge_ui_state` untouched and is returned to
the caller, so the returned `newState` carries a hidden, secondary-zone core
component. -/
theorem C1_core_safety_unenforced :
    adjust_ui demoUI evilAgentResult = .ok (.accepted "ok" (mkUIState Theme.dark
      [hiddenAltitude, stdComp .airspeed .primary 1, stdComp .rpm .primary 2,
        stdComp .phase .primary 3, stdComp .fuel .secondary 4])) ∧
    metaIsCore CompId.altitude = true ∧
    hiddenAltitude.id = CompId.altitude ∧
    hiddenAltitude.visible = false ∧
    hiddenAltitude.zone = Zone.secondary := by decide

/-- C4: the claim says the `UIState` constructor enforces unique component ids
and the presence of the four core ids.  The pydantic model declares no
validator: it accepts a state with no components at all (no core id present)
and a state with two components sharing the id `fuel`. -/
theorem C4_uistate_accepts_invalid :
    (mkUIState Theme.dark []).components.map (fun c => c.id) = [] ∧
    CompId.altitude ∉ (mkUIState Theme.dark []).components.map (fun c => c.id) ∧
    ((mkUIState Theme.dark [fuelA, fuelB]).components.map
      (fun c => c.id)).count CompId.fuel = 2 := by decide

/-- C2 counterexample: the prior `fuel` carries `color = "red"`; the proposal
mentions `fuel` without setting `color` (stored as `None`); the claim says the
prior `"red"` survives, but the merged component's `color` is `None` — the
proposal record replaces the prior component wholesale. -/
theorem C2_cex_unset_field_lost :
    _merge_ui_state (mkUIState Theme.dark [redFuel])
        (some (mkUIState Theme.dark [movedFuel])) =
      .ok (mkUIState Theme.dark [movedFuel]) ∧
    redFuel.color = some "red" ∧ movedFuel.color = none := by decide

/-- C2 (amended): for an id mentioned in both states, the merge loop rebuilds
the component from `{**fallback.dict(), **source}`, and since `dict()` emits
every field, the overlay *is* the proposal's serialization: the merged
component equals the proposal's component re-run through the constructor
(fields the proposal leaves unset become their post-construction `None` /
default values; no prior field survives).  For constructor-normalized
components this is the proposal's component verbatim. -/
theorem C2_proposal_replaces (fb comp : ComponentConfig) :
    mergeOne (some fb) comp = mkComponentConfig (toRaw comp) ∧
    (validB comp = true → mergeOne (some fb) comp = .ok comp) :=
  ⟨rfl, fun h => mergeOne_ok comp h (some fb)⟩

/-- Witness for C2 at the red/moved fuel pair. -/
theorem C2_witness : mergeOne (some redFuel) movedFuel = .ok movedFuel :=
  (C2_proposal_replaces redFuel movedFuel).2 (by decide)

/-- The raw pair `halfRat` is the rational `0.5`, so `scaleOk` checks exactly
`0.5 ≤ scale ≤ 2.0`. -/
theorem scaleOk_iff (x : Rat) :
    scaleOk x = true ↔ ((1 : Rat) / 2 ≤ x ∧ x ≤ 2) := by
  have h : halfRat = (1 : Rat) / 2 := by
    unfold halfRat
    rw [Rat.mk'_eq_divInt, Rat.divInt_eq_div]
    norm_num
  simp [scaleOk, h]

/-- C3 counterexample: a proposal that itself lists two components with the
id `fuel` merges into a state listing `fuel` twice — the result's ids are not
"each id exactly once". -/
theorem C3_cex_duplicate_proposal :
    _merge_ui_state (mkUIState Theme.dark [])
        (some (mkUIState Theme.dark [fuelA, fuelB])) =
      .ok (mkUIState Theme.dark [fuelA, fuelB]) ∧
    ((mkUIState Theme.dark [fuelA, fuelB]).components.map
      (fun c => c.id)).count CompId.fuel = 2 := by decide

/-- C3 (amended): provided the proposal's component ids are pairwise distinct
(and its components are constructor-normalized), a successful merge contains
each id of the union of prior and proposed ids exactly once — duplicates in
the *prior* state are collapsed by the id-keyed dict, so no hypothesis on the
prior state is needed. -/
theorem C3_merge_ids_union (P U S : UIState) (i : CompId)
    (hU : ∀ c ∈ U.components, validB c = true)
    (hN : (U.components.map (fun c => c.id)).Nodup)
    (hM : _merge_ui_state P (some U) = .ok S) :
    (S.components.map (fun c => c.id)).count i =
      if i ∈ U.components.map (fun c => c.id) ∨
          i ∈ P.components.map (fun c => c.id) then 1 else 0 := by
  rw [merge_components P U hU] at hM
  have hS := (Except.ok.inj hM).symm
  subst hS
  rw [List.map_append, List.count_append,
    preserved_ids (buildDict P.components) _ (pair_id_buildDict P.components)]
  have hkeysN := keys_nodup_buildDict P.components
  by_cases hiU : i ∈ U.components.map (fun c => c.id)
  · have h1 : (U.components.map (fun c => c.id)).count i = 1 :=
      List.count_eq_one_of_mem hN hiU
    have h2 : (((buildDict P.components).map Prod.fst).filter
        (fun j => !decide (j ∈ U.components.map (fun c => c.id)))).count i = 0 := by
      apply List.count_eq_zero_of_not_mem
      intro hmem
      have := (List.mem_filter.mp hmem).2
      simp [hiU] at this
    rw [h1, h2]
    simp [hiU]
  · have h1 : (U.components.map (fun c => c.id)).count i = 0 :=
      List.count_eq_zero_of_not_mem hiU
    rw [h1]
    by_cases hiP : i ∈ P.components.map (fun c => c.id)
    · have hkey : i ∈ (buildDict P.components).map Prod.fst :=
        (mem_keys_buildDict P.components i).mpr hiP
      have h2 : (((buildDict P.components).map Prod.fst).filter
          (fun j => !decide (j ∈ U.components.map (fun c => c.id)))).count i = 1 := by
        apply List.count_eq_one_of_mem (hkeysN.filter _)
        exact List.mem_filter.mpr ⟨hkey, by simp [hiU]⟩
      rw [h2]
      simp [hiU, hiP]
    · have hkey : i ∉ (buildDict P.components).map Prod.fst := by
        rw [mem_keys_buildDict]
        exact hiP
      have h2 : (((buildDict P.components).map Prod.fst).filter
          (fun j => !decide (j ∈ U.components.map (fun c => c.id)))).count i = 0 := by
        apply List.count_eq_zero_of_not_mem
        intro hmem
        exact hkey (List.mem_filter.mp hmem).1
      rw [h2]
      simp [hiU, hiP]

/-- Witness for C3 at a five-component prior and a one-component proposal. -/
theorem C3_witness :
    ((mkUIState Theme.light [movedFuel, stdComp .altitude .primary 0,
        stdComp .airspeed .primary 1, stdComp .rpm .primary 2,
        stdComp .phase .primary 3]).components.map (fun c => c.id)).count
        CompId.fuel =
      if CompId.fuel ∈ (mkUIState Theme.light [movedFuel]).components.map
          (fun c => c.id) ∨
          CompId.fuel ∈ demoUI.components.map (fun c => c.id) then 1 else 0 :=
  C3_merge_ids_union demoUI (mkUIState Theme.light [movedFuel])
    (mkUIState Theme.light [movedFuel, stdComp .altitude .primary 0,
      stdComp .airspeed .primary 1, stdComp .rpm .primary 2,
      stdComp .phase .primary 3]) CompId.fuel (by decide) (by decide) (by decide)

/-- C5 counterexample: an input that explicitly sets `isCore = false` on the
core id `altitude` is accepted and keeps `false`, contradicting the table. -/
theorem C5_cex_isCore_contradicts_table :
    mkComponentConfig
      { id := CompId.altitude, label := none, visible := true,
        zone := Zone.primary, order := 0, color := none, bgColor := none,
        scale := none, isCore := some false, visualizationType := none } =
      Except.ok
        { id := CompId.altitude, label := "Altitude (ft)", visible := true,
          zone := Zone.primary, order := 0, color := none, bgColor := none,
          scale := some 1, isCore := false, visualizationType := none } ∧
    metaIsCore CompId.altitude = true := by decide

/-- C5 (amended): on any successfully constructed component, `label` defaults
from the table when absent or empty and is kept when non-empty, and `isCore`
defaults from the table when absent — but an explicitly supplied `isCore` is
stored verbatim, even when it contradicts the table's flag for that id. -/
theorem C5_defaulting (r : RawComponent) (c : ComponentConfig)
    (h : mkComponentConfig r = .ok c) :
    ((r.label = none ∨ r.label = some "") → c.label = metaLabel r.id) ∧
    (∀ s : String, r.label = some s → s.isEmpty = false → c.label = s) ∧
    (r.isCore = none → c.isCore = metaIsCore r.id) ∧
    (∀ b : Bool, r.isCore = some b → c.isCore = b) := by
  have hlab : c.label = defaultedLabel r.id r.label ∧
      c.isCore = defaultedIsCore r.id r.isCore := by
    unfold mkComponentConfig at h
    split at h
    · split at h
      · have he := Except.ok.inj h
        rw [← he]
        exact ⟨rfl, rfl⟩
      · exact absurd h (by simp)
    · have he := Except.ok.inj h
      rw [← he]
      exact ⟨rfl, rfl⟩
    · have he := Except.ok.inj h
      rw [← he]
      exact ⟨rfl, rfl⟩
  obtain ⟨hl, hcore⟩ := hlab
  refine ⟨?_, ?_, ?_, ?_⟩
  · rintro (hr | hr) <;> rw [hl, hr] <;> rfl
  · intro s hs hemp
    rw [hl, hs]
    simp [defaultedLabel, hemp]
  · intro hr
    rw [hcore, hr]
    rfl
  · intro b hb
    rw [hcore, hb]
    rfl

/-- Witness for C5: an input with `label` and `isCore` both absent gets the
table's label and core flag. -/
theorem C5_witness :
    ({ id := CompId.fuel, label := "Fuel Level (%)", visible := true,
         zone := Zone.secondary, order := 3, color := none, bgColor := none,
         scale := some 1, isCore := false, visualizationType := none } :
      ComponentConfig).label = metaLabel CompId.fuel ∧
    ({ id := CompId.fuel, label := "Fuel Level (%)", visible := true,
         zone := Zone.secondary, order := 3, color := none, bgColor := none,
         scale := some 1, isCore := false, visualizationType := none } :
      ComponentConfig).isCore = metaIsCore CompId.fuel := by
  have h := C5_defaulting
    { id := CompId.fuel, label := none, visible := true, zone := Zone.secondary,
      order := 3, color := none, bgColor := none, scale := none, isCore := none,
      visualizationType := none }
    { id := CompId.fuel, label := "Fuel Level (%)", visible := true,
      zone := Zone.secondary, order := 3, color := none, bgColor := none,
      scale := some 1, isCore := false, visualizationType := none }
    (by rfl)
  exact ⟨h.1 (Or.inl rfl), h.2.2.1 rfl⟩

/-- C6 counterexample: with two prior components sharing the id `fuel` and a
proposal mentioning nothing, only the *last* prior `fuel` survives the merge —
the first one is dropped even though its id is unmentioned, so not every
unmentioned prior component appears in the merged state. -/
theorem C6_cex_duplicate_prior :
    _merge_ui_state (mkUIState Theme.dark [fuelA, fuelB])
        (some (mkUIState Theme.dark [])) = .ok (mkUIState Theme.dark [fuelB]) ∧
    fuelA ∈ (mkUIState Theme.dark [fuelA, fuelB]).components ∧
    fuelA.id ∉ (mkUIState Theme.dark []).components.map (fun c => c.id) ∧
    fuelA ∉ (mkUIState Theme.dark [fuelB]).components := by decide

/-- C6 (amended): an absent proposal returns the prior state unchanged; the
merged theme is always the proposal's theme (the mandatory theme literal is
always truthy); and — provided the prior state's ids are pairwise distinct —
every prior component whose id the proposal does not mention appears in the
merged state with all its fields unchanged. -/
theorem C6_frame_preservation :
    (∀ P : UIState, _merge_ui_state P none = .ok P) ∧
    (∀ P U S : UIState, _merge_ui_state P (some U) = .ok S →
      S.theme = U.theme) ∧
    (∀ P U S : UIState, (P.components.map (fun c => c.id)).Nodup →
      _merge_ui_state P (some U) = .ok S →
      ∀ c ∈ P.components, c.id ∉ U.components.map (fun c2 => c2.id) →
        c ∈ S.components) := by
  refine ⟨fun P => rfl, ?_, ?_⟩
  · intro P U S hM
    obtain ⟨merged, hmap, rfl⟩ := merge_some_shape P U S hM
    rfl
  · intro P U S hN hM c hc hni
    obtain ⟨merged, hmap, rfl⟩ := merge_some_shape P U S hM
    apply List.mem_append_right
    rw [buildDict_nodup P.components hN]
    apply List.mem_filterMap.mpr
    refine ⟨(c.id, c), List.mem_map.mpr ⟨c, hc, rfl⟩, ?_⟩
    rw [if_neg hni]

/-- Witness for C6: merging the demo state with a fuel-only proposal keeps the
unmentioned `altitude` component unchanged. -/
theorem C6_witness :
    stdComp .altitude .primary 0 ∈ (mkUIState Theme.light [movedFuel,
      stdComp .altitude .primary 0, stdComp .airspeed .primary 1,
      stdComp .rpm .primary 2, stdComp .phase .primary 3]).components :=
  C6_frame_preservation.2.2 demoUI (mkUIState Theme.light [movedFuel])
    (mkUIState Theme.light [movedFuel, stdComp .altitude .primary 0,
      stdComp .airspeed .primary 1, stdComp .rpm .primary 2,
      stdComp .phase .primary 3]) (by decide) (by decide)
    (stdComp .altitude .primary 0) (by decide) (by decide)

/-- C10: a success result with no `updatedConfig` merges the current state
with itself, which reproduces it exactly: the endpoint still answers success
and `newState` is the caller-supplied state, fields and theme unchanged. -/
theorem C10_absent_config_returns_current (current : UIState)
    (msg : Option String)
    (h : ∀ c ∈ current.components, validB c = true) :
    adjust_ui current
      { success := true, message := msg, updatedConfig := none } =
      .ok (.accepted (pyOrStr msg "Configuration updated.") current) := by
  have h0 : adjust_ui current
      { success := true, message := msg, updatedConfig := none } =
      match _merge_ui_state current (some current) with
      | .error e => .error e
      | .ok merged =>
          .ok (.accepted (pyOrStr msg "Configuration updated.") merged) := rfl
  rw [h0, merge_self current h]

/-- Witness for C10 at the demo state. -/
theorem C10_witness :
    adjust_ui demoUI
      { success := true, message := none, updatedConfig := none } =
      .ok (.accepted (pyOrStr none "Configuration updated.") demoUI) :=
  C10_absent_config_returns_current demoUI none (by decide)

/-- C7 counterexample: the text is exactly one balanced JSON object containing
a concrete `"success": true`, but a nested object precedes the discriminator,
so the backward scan stops at the *inner* `\x7b` and extraction under the
local flag returns the inner object `\x7b"b": 1\x7d` instead of the whole
text. -/
theorem C7_cex_nested_object :
    forwardScan ("\x7b\"a\": \x7b\"b\": 1\x7d, \"success\": true\x7d").toList 0 =
      some ("\x7b\"a\": \x7b\"b\": 1\x7d, \"success\": true\x7d").toList.length ∧
    (searchSuccess
      ("\x7b\"a\": \x7b\"b\": 1\x7d, \"success\": true\x7d").toList).isSome =
      true ∧
    extract_json_from_response
        ("\x7b\"a\": \x7b\"b\": 1\x7d, \"success\": true\x7d").toList true =
      ("\x7b\"b\": 1\x7d").toList ∧
    ("\x7b\"b\": 1\x7d").toList ≠
      ("\x7b\"a\": \x7b\"b\": 1\x7d, \"success\": true\x7d").toList := by decide

/-- C7 (amended): with the remote flag the extractor returns exactly the
trimmed input; and a trimmed, fence-free text that is one balanced JSON object
containing a concrete success boolean is returned byte-for-byte under either
flag *provided* no opening brace lies strictly between the object's start and
the discriminator match (e.g. the `success` key precedes any nested object). -/
theorem C7_clean_extraction :
    (∀ raw : List Char, extract_json_from_response raw false = pyStrip raw) ∧
    (∀ (s : List Char) (v : Nat), btick ∉ s → pyStrip s = s →
      searchSuccess s = some v → backBrace s v = 0 →
      forwardScan s 0 = some s.length →
      extract_json_from_response s true = s ∧
        extract_json_from_response s false = s) := by
  constructor
  · intro raw
    rfl
  · intro s v hb hstrip hsv hbb hfs
    refine ⟨?_, hstrip⟩
    have h0 : extract_json_from_response s true =
        (match searchSuccess (cleanLocal s) with
        | some vp =>
            pySlice (cleanLocal s) (backBrace (cleanLocal s) vp)
              ((forwardScan (cleanLocal s) (backBrace (cleanLocal s) vp)).getD
                (backBrace (cleanLocal s) vp))
        | none =>
            match maxByLen (allSpans (cleanLocal s)) with
            | some best => best
            | none => cleanLocal s) := rfl
    rw [h0, cleanLocal_id s hb hstrip, hsv]
    show pySlice s (backBrace s v)
      ((forwardScan s (backBrace s v)).getD (backBrace s v)) = s
    rw [hbb, hfs, Option.getD_some]
    exact pySlice_full s

/-- Witness for C7 at a clean one-object input whose success key comes
first. -/
theorem C7_witness :
    extract_json_from_response ("\x7b\"success\": true\x7d").toList true =
        ("\x7b\"success\": true\x7d").toList ∧
      extract_json_from_response ("\x7b\"success\": true\x7d").toList false =
        ("\x7b\"success\": true\x7d").toList :=
  C7_clean_extraction.2 ("\x7b\"success\": true\x7d").toList 1 (by decide)
    (by decide) (by decide) (by decide) (by decide)

/-- C8: under the local flag, when the fence-stripped trimmed text has no
concrete success discriminator, the extractor returns the longest balanced
brace span found by scanning from every opening brace, and returns the
trimmed text itself when no balanced span exists. -/
theorem C8_fallback_longest (s : List Char)
    (h : searchSuccess (cleanLocal s) = none) :
    (allSpans (cleanLocal s) = [] →
      extract_json_from_response s true = cleanLocal s) ∧
    (∀ b ∈ allSpans (cleanLocal s),
      b.length ≤ (extract_json_from_response s true).length) ∧
    (allSpans (cleanLocal s) ≠ [] →
      extract_json_from_response s true ∈ allSpans (cleanLocal s)) := by
  have h0 : extract_json_from_response s true =
      (match searchSuccess (cleanLocal s) with
      | some vp =>
          pySlice (cleanLocal s) (backBrace (cleanLocal s) vp)
            ((forwardScan (cleanLocal s) (backBrace (cleanLocal s) vp)).getD
              (backBrace (cleanLocal s) vp))
      | none =>
          match maxByLen (allSpans (cleanLocal s)) with
          | some best => best
          | none => cleanLocal s) := rfl
  have hext : extract_json_from_response s true =
      match maxByLen (allSpans (cleanLocal s)) with
      | some best => best
      | none => cleanLocal s := by
    rw [h0, h]
  rw [hext]
  cases hm : maxByLen (allSpans (cleanLocal s)) with
  | none =>
      have hnil : allSpans (cleanLocal s) = [] := by
        cases hs : allSpans (cleanLocal s) with
        | nil => rfl
        | cons a t =>
            rw [hs] at hm
            exact absurd hm (by simp [maxByLen])
      refine ⟨fun _ => rfl, ?_, fun hne => absurd hnil hne⟩
      intro b hbmem
      rw [hnil] at hbmem
      exact absurd hbmem (by simp)
  | some best =>
      obtain ⟨hmem, hall⟩ := maxByLen_spec _ best hm
      refine ⟨?_, hall, fun _ => hmem⟩
      intro hnil
      rw [hnil] at hm
      exact absurd hm (by simp [maxByLen])

/-- Witness for C8: a success-free text with a short and a long balanced span;
the extractor picks a span at least as long as the long one. -/
theorem C8_witness :
    allSpans (cleanLocal
        ("x \x7b\"a\":1\x7d y \x7b\"b\":22, \"c\":333\x7d z").toList) ≠ [] ∧
    extract_json_from_response
        ("x \x7b\"a\":1\x7d y \x7b\"b\":22, \"c\":333\x7d z").toList true ∈
      allSpans (cleanLocal
        ("x \x7b\"a\":1\x7d y \x7b\"b\":22, \"c\":333\x7d z").toList) ∧
    ("\x7b\"b\":22, \"c\":333\x7d").toList.length ≤
      (extract_json_from_response
        ("x \x7b\"a\":1\x7d y \x7b\"b\":22, \"c\":333\x7d z").toList
        true).length :=
  ⟨by decide,
    (C8_fallback_longest
      ("x \x7b\"a\":1\x7d y \x7b\"b\":22, \"c\":333\x7d z").toList
      (by decide)).2.2 (by decide),
    (C8_fallback_longest
      ("x \x7b\"a\":1\x7d y \x7b\"b\":22, \"c\":333\x7d z").toList
      (by decide)).2.1 ("\x7b\"b\":22, \"c\":333\x7d").toList (by decide)⟩

/-- C9: parsing either returns the decoded value or a catchable 502
`HTTPException` whose detail carries the decode error message — never any
other outcome; in particular the malformed fenced output
`Sure! ...json \x7b"success": tru\x7d...` under the local flag yields that
error, not a fabricated success. -/
theorem C9_parse_malformed_catchable :
    (∀ (raw : List Char) (flag : Bool),
      (∃ v, parse_agent_response raw flag = .ok v) ∨
      ∃ e, parse_agent_response raw flag = .error e ∧ e.status_code = 502 ∧
        ∃ m, e.detail = "解析代理响应失败: " ++ m) ∧
    (∃ e, parse_agent_response
        ("Sure! ```json \x7b\"success\": tru\x7d``` ").toList true =
          .error e ∧ e.status_code = 502) := by
  constructor
  · intro raw flag
    cases hj : jsonLoads (extract_json_from_response raw flag) with
    | ok v =>
        refine Or.inl ⟨v, ?_⟩
        unfold parse_agent_response
        rw [hj]
    | error e =>
        refine Or.inr
          ⟨{ status_code := 502, detail := "解析代理响应失败: " ++ e }, ?_, rfl,
            e, rfl⟩
        unfold parse_agent_response
        rw [hj]
  · exact ⟨{ status_code := 502,
             detail := "解析代理响应失败: " ++ "Expecting value" },
      by rfl, rfl⟩
